import Mathlib

/-!
Verification of the transaction-lifecycle core of an Ethereum JSON-RPC
client library (`FetchJsonRpc`).  The definitions below are a shallow
embedding of `src/source/index.ts` together with the helper
`stripLeadingZeros` (`src/unnamed/part_001`).  JavaScript bigints are
embedded as `Nat` (all values in the program are non-negative), byte
arrays as `List Nat`, JavaScript strings as `List Char`, and
`null`/`undefined` as `Option`.  External collaborators that are not part
of the repository (the RLP list encoder, `Bytes.fromUnsignedInteger`,
`Bytes.fromHexString`, `TextDecoder`) are either kept abstract (the RLP
encoder is a function parameter) or modelled from the spec's words, as
marked on each definition.
-/

/-- From `src/unnamed/part_001`: skips the maximal run of leading zero
bytes (the loop breaks at the first non-zero byte) and copies the rest. -/
def stripLeadingZeros : List Nat → List Nat
  | [] => []
  | b :: rest => if b = 0 then stripLeadingZeros rest else b :: rest

/-- Modelled from the spec: `Bytes.fromUnsignedInteger(value, bits)` from the
external `@zoltu/ethereum-types` package (not under `src/`), per §4.3's
"fixed-width" integer bytes: the big-endian encoding of `value` in
`bits / 8` bytes. -/
def bytesFromUnsignedInteger (value : Nat) (bits : Nat) : List Nat :=
  (List.range (bits / 8)).map fun i => value / 256 ^ (bits / 8 - 1 - i) % 256

/-- The minimal big-endian byte representation of a natural number (no
leading zero bytes; `0` is the empty byte string).  This definition follows
the spec's words in §4.3 and is compared against the source's
`stripLeadingZeros ∘ bytesFromUnsignedInteger`. -/
def minimalBigEndian (n : Nat) : List Nat :=
  if h : n = 0 then [] else minimalBigEndian (n / 256) ++ [n % 256]
termination_by n
decreasing_by exact Nat.div_lt_self (Nat.pos_of_ne_zero h) (by decide)

/-- This definition follows the spec's words in C1: the fixed-width (20-byte)
big-endian address bytes, for comparison with what the source emits for the
`to` field. -/
def fixedWidthAddressBytes (address : Nat) : List Nat :=
  (List.range 20).map fun i => address / 256 ^ (20 - 1 - i) % 256

/-- The `IUnsignedTransaction` shape used by `rlpEncodeTransaction` and
`signTransaction` (`from` is irrelevant to the encoder and omitted there;
it is tracked by `IOffChainTransaction` below). -/
structure IUnsignedTransaction where
  nonce : Nat
  gasPrice : Nat
  gasLimit : Nat
  toAddress : Option Nat
  value : Nat
  data : List Nat
  chainId : Nat
deriving DecidableEq

/-- The `ISignedTransaction` shape: an unsigned transaction plus `v`, `r`, `s`
(the source's `isSignedTransaction` tag, `r !== undefined`, becomes the
`Sum` tag below). -/
structure ISignedTransaction extends IUnsignedTransaction where
  v : Nat
  r : Nat
  s : Nat
deriving DecidableEq

/-- From `src/source/index.ts` lines 201-219: the ordered field list that
`rlpEncodeTransaction` builds and hands to the external binary list
encoder `rlpEncode`. -/
def rlpEncodeTransactionFields (transaction : IUnsignedTransaction ⊕ ISignedTransaction) :
    List (List Nat) :=
  let base := match transaction with
    | Sum.inl t => t
    | Sum.inr t => t.toIUnsignedTransaction
  let toEncode := [
    stripLeadingZeros (bytesFromUnsignedInteger base.nonce 256),
    stripLeadingZeros (bytesFromUnsignedInteger base.gasPrice 256),
    stripLeadingZeros (bytesFromUnsignedInteger base.gasLimit 256),
    stripLeadingZeros (match base.toAddress with
      | some a => bytesFromUnsignedInteger a 256
      | none => []),
    stripLeadingZeros (bytesFromUnsignedInteger base.value 256),
    base.data]
  match transaction with
  | Sum.inl t =>
    toEncode ++ [stripLeadingZeros (bytesFromUnsignedInteger t.chainId 256),
      stripLeadingZeros [], stripLeadingZeros []]
  | Sum.inr t =>
    toEncode ++ [stripLeadingZeros (bytesFromUnsignedInteger t.v 256),
      stripLeadingZeros (bytesFromUnsignedInteger t.r 256),
      stripLeadingZeros (bytesFromUnsignedInteger t.s 256)]

/-- From `src/source/index.ts` line 219: the encoder's result is
`rlpEncode(toEncode)`; the RLP list encoder itself is external to the
repository (`./vendor/rlp-encoder`), so it stays a function parameter. -/
def rlpEncodeTransaction (rlpEncode : List (List Nat) → List Nat)
    (transaction : IUnsignedTransaction ⊕ ISignedTransaction) : List Nat :=
  rlpEncode (rlpEncodeTransactionFields transaction)

/-- The `TransactionReceipt` shape as the confirmation loop inspects it:
both block fields may be `null`, `status` is the mined-success flag, and
`contractAddress` is `null` except for successful contract creation. -/
structure TransactionReceipt where
  blockNumber : Option Nat
  blockHash : Option Nat
  status : Bool
  contractAddress : Option Nat
deriving DecidableEq

/-- From `src/source/index.ts` lines 138-145: `getTransactionReceipt` maps
the node's raw result to `null` when the result itself, its `blockNumber`,
or its `blockHash` is `null`, and otherwise returns the receipt. -/
def getTransactionReceipt (rawResult : Option TransactionReceipt) :
    Option TransactionReceipt :=
  match rawResult with
  | none => none
  | some receipt =>
    if receipt.blockNumber = none ∨ receipt.blockHash = none then none
    else some receipt

/-- From `src/source/index.ts` lines 82-87: the confirmation polling loop.
The node's successive answers are a finite script (`receiptResponses`);
the result pairs the number of `sleep(1000)` delays taken with the receipt
the loop terminates on, and is `none` when the script is exhausted (the
real loop is unbounded). -/
def confirmationLoop : List (Option TransactionReceipt) →
    Option (Nat × TransactionReceipt)
  | [] => none
  | rawResult :: rest =>
    match getTransactionReceipt rawResult with
    | none => (confirmationLoop rest).map fun p => (p.1 + 1, p.2)
    | some receipt =>
      if receipt.blockNumber = none then
        (confirmationLoop rest).map fun p => (p.1 + 1, p.2)
      else some (0, receipt)

/-- The two errors `executeTransaction` can raise after a mined receipt:
`miningFailure` is `Transaction mined, but failed.` and `deploymentFailure`
is `Contract deployment failed.  Contract address was null.`. -/
inductive ExecuteError where
  | miningFailure
  | deploymentFailure
deriving DecidableEq

/-- JavaScript falsiness of a `bigint | null` value: `null` and `0n` are
falsy, every other bigint is truthy. -/
def jsFalsy (x : Option Nat) : Bool :=
  match x with
  | none => true
  | some v => v == 0

/-- From `src/source/index.ts` lines 88-90: the checks `executeTransaction`
runs on the receipt the confirmation loop produced.  `!receipt.status`
raises the mining failure; `!receipt.contractAddress && !transaction.to`
(JavaScript falsiness on both) raises the deployment failure. -/
def checkMinedReceipt (toAddress : Option Nat) (receipt : TransactionReceipt) :
    Except ExecuteError TransactionReceipt :=
  if receipt.status = false then Except.error ExecuteError.miningFailure
  else if jsFalsy receipt.contractAddress && jsFalsy toAddress then
    Except.error ExecuteError.deploymentFailure
  else Except.ok receipt

/-- From `src/source/index.ts` lines 80-91: `executeTransaction`'s
receipt phase, with submission abstracted into the response script.  The
result is `none` while no qualifying receipt has appeared (no error is
raised there), and otherwise the outcome of the mined-receipt checks. -/
def executeTransaction (toAddress : Option Nat)
    (receiptResponses : List (Option TransactionReceipt)) :
    Option (Except ExecuteError TransactionReceipt) :=
  match confirmationLoop receiptResponses with
  | none => none
  | some (_, receipt) => some (checkMinedReceipt toAddress receipt)

/-- Claim C8: `stripLeadingZeros` removes a maximal run of leading zero
bytes leaving the remaining suffix byte-for-byte intact (it coincides with
`List.dropWhile (· == 0)`), and it is idempotent. -/
theorem C8_stripLeadingZerosSpec (b : List Nat) :
    stripLeadingZeros b = List.dropWhile (fun x => x == 0) b ∧
    stripLeadingZeros (stripLeadingZeros b) = stripLeadingZeros b := by
  constructor
  · induction b with
    | nil => rfl
    | cons a l ih =>
      by_cases h : a = 0
      · have hb : (a == 0) = true := by simp [h]
        simp [stripLeadingZeros, List.dropWhile, h, hb, ih]
      · have hb : (a == 0) = false := by simp [h]
        simp [stripLeadingZeros, List.dropWhile, h, hb]
  · induction b with
    | nil => rfl
    | cons a l ih =>
      by_cases h : a = 0
      · simp [stripLeadingZeros, h, ih]
      · simp [stripLeadingZeros, h]

/-- Claim C4: a fetched receipt counts as pending unless both `blockNumber`
and `blockHash` are non-null (`getTransactionReceipt` returns `null`
exactly when the raw result is `null` or either block field is `null`),
and on the receipt script `[null, {blockNumber: null}, {blockNumber: 5,
blockHash: 0xabc, status: true}]` the confirmation loop takes exactly two
polling delays and returns the third receipt. -/
theorem C4_confirmationPolling :
    getTransactionReceipt none = none ∧
    (∀ receipt : TransactionReceipt,
      getTransactionReceipt (some receipt) =
        if receipt.blockNumber = none ∨ receipt.blockHash = none then none
        else some receipt) ∧
    confirmationLoop
        [none,
         some ⟨none, some 0, true, none⟩,
         some ⟨some 5, some 0xabc, true, some 1⟩] =
      some (2, ⟨some 5, some 0xabc, true, some 1⟩) := by
  refine ⟨rfl, fun receipt => rfl, by decide⟩

/-- Claim C5: once the confirmation loop yields a mined receipt, a `false`
status raises the mining failure; a contract creation (`to = null`) whose
receipt lacks a `contractAddress` raises the deployment failure even with
`status` true; and while no mined receipt has been obtained
`executeTransaction` raises neither error. -/
theorem C5_minedReceiptErrors (toAddress : Option Nat) (receipt : TransactionReceipt) :
    (receipt.status = false →
      checkMinedReceipt toAddress receipt = Except.error ExecuteError.miningFailure) ∧
    (receipt.status = true → toAddress = none → receipt.contractAddress = none →
      checkMinedReceipt toAddress receipt = Except.error ExecuteError.deploymentFailure) ∧
    (∀ receiptResponses, confirmationLoop receiptResponses = none →
      executeTransaction toAddress receiptResponses = none) := by
  refine ⟨fun hs => ?_, fun hs hto haddr => ?_, fun responses h => ?_⟩
  · simp [checkMinedReceipt, hs]
  · simp [checkMinedReceipt, hs, hto, haddr, jsFalsy]
  · simp [executeTransaction, h]

/-- Witness for C5 at concrete receipts: a failed-status receipt raises the
mining failure, a creation receipt without an address raises the deployment
failure, and an unmined script raises nothing. -/
theorem C5_minedReceiptErrors_witness :
    checkMinedReceipt (some 5) ⟨some 1, some 1, false, none⟩ =
      Except.error ExecuteError.miningFailure ∧
    checkMinedReceipt none ⟨some 1, some 1, true, none⟩ =
      Except.error ExecuteError.deploymentFailure ∧
    executeTransaction (some 5) [none] = none :=
  ⟨(C5_minedReceiptErrors (some 5) ⟨some 1, some 1, false, none⟩).1 rfl,
   (C5_minedReceiptErrors none ⟨some 1, some 1, true, none⟩).2.1 rfl rfl rfl,
   (C5_minedReceiptErrors (some 5) ⟨some 1, some 1, false, none⟩).2.2 [none] rfl⟩

/-- Claim C10: a transaction sent to the zero address (`to = 0`, not
`null`) whose mined receipt has a `null` `contractAddress` raises the
deployment failure even though it is not a contract creation, because the
creation check tests JavaScript falsiness of `to` rather than comparing it
to `null`. -/
theorem C10_zeroAddressDeployment (receipt : TransactionReceipt)
    (hstatus : receipt.status = true) (haddr : receipt.contractAddress = none) :
    checkMinedReceipt (some 0) receipt =
      Except.error ExecuteError.deploymentFailure := by
  simp [checkMinedReceipt, hstatus, haddr, jsFalsy]

/-- Witness for C10: a concrete mined receipt with a true status and no
contract address, for a transaction whose destination is the zero address. -/
theorem C10_zeroAddressDeployment_witness :
    checkMinedReceipt (some 0) ⟨some 5, some 1, true, none⟩ =
      Except.error ExecuteError.deploymentFailure :=
  C10_zeroAddressDeployment ⟨some 5, some 1, true, none⟩ rfl rfl

/-- The `yParity` field of a signature: `'even' | 'odd'`. -/
inductive YParity where
  | even
  | odd
deriving DecidableEq

/-- The `SignatureLike` shape returned by the caller-supplied
`signatureProvider`. -/
structure SignatureLike where
  r : Nat
  s : Nat
  yParity : YParity
deriving DecidableEq

/-- The `IOffChainTransaction` shape (the `gasEstimatingTransaction` built
by `signTransaction`); `fromAddress` embeds the `from` field. -/
structure IOffChainTransaction where
  fromAddress : Nat
  toAddress : Option Nat
  value : Nat
  data : List Nat
  gasLimit : Nat
  gasPrice : Nat
deriving DecidableEq

/-- The caller's partially-specified transaction
(`Partial<IUnsignedTransaction> & { to: bigint | null }`): every field but
`to` may be `undefined` (`none`). -/
structure TxInput where
  fromAddress? : Option Nat
  toAddress : Option Nat
  value? : Option Nat
  data? : Option (List Nat)
  gasLimit? : Option Nat
  gasPrice? : Option Nat
  nonce? : Option Nat
deriving DecidableEq

/-- JavaScript `x || fallback` on a possibly-`undefined` bigint: the
fallback is used when `x` is `undefined` or `0n` (both falsy). -/
def jsOrBigint (x : Option Nat) (fallback : Nat) : Nat :=
  match x with
  | some v => if v == 0 then fallback else v
  | none => fallback

/-- The remote values `signTransaction` resolves fields from: the
`coinbase()` result (after `.catch(() => null)`), the remote gas price,
the remote pending transaction count keyed by `from`, and the memoized
chain id. -/
structure AssembleEnv where
  coinbase : Option Nat
  gasPrice : Nat
  transactionCount : Nat → Nat
  chainId : Nat

/-- From `src/source/index.ts` lines 154-161: the provisional
`gasEstimatingTransaction`.  `from` uses an `!== undefined` check then
`coinbase() || 0n`; `value`, `gasLimit`, `gasPrice` use `||` fallbacks
(so a caller-supplied `0n` falls back); `data || new Bytes()` only falls
back on `undefined` since any supplied array is truthy. -/
def gasEstimatingTransaction (env : AssembleEnv) (transaction : TxInput) :
    IOffChainTransaction :=
  { fromAddress := match transaction.fromAddress? with
      | some f => f
      | none => jsOrBigint env.coinbase 0,
    toAddress := transaction.toAddress,
    value := jsOrBigint transaction.value? 0,
    data := match transaction.data? with
      | some d => d
      | none => [],
    gasLimit := jsOrBigint transaction.gasLimit? 1000000000,
    gasPrice := jsOrBigint transaction.gasPrice? env.gasPrice }

/-- From `src/source/index.ts` lines 162-167: the assembled
`unsignedTransaction`.  Besides it, the result records whether the
`gasLimitProvider` was invoked and whether the remote transaction count
was queried (in the source those effects happen exactly when the `||`
fallback fires, i.e. when the caller field is missing or `0n`). -/
def assembleTransaction
    (gasLimitProvider : IOffChainTransaction → (IOffChainTransaction → Nat) → Nat)
    (estimateGas : IOffChainTransaction → Nat)
    (env : AssembleEnv) (transaction : TxInput) :
    IUnsignedTransaction × Bool × Bool :=
  let gasEstimating := gasEstimatingTransaction env transaction
  ({ nonce := jsOrBigint transaction.nonce?
        (env.transactionCount gasEstimating.fromAddress),
     gasPrice := gasEstimating.gasPrice,
     gasLimit := jsOrBigint transaction.gasLimit?
        (gasLimitProvider gasEstimating estimateGas),
     toAddress := gasEstimating.toAddress,
     value := gasEstimating.value,
     data := gasEstimating.data,
     chainId := env.chainId },
   jsFalsy transaction.gasLimit?,
   jsFalsy transaction.nonce?)

/-- From `src/source/index.ts` lines 168-177: the strategy branch of
`signTransaction`.  With no `signatureProvider` the node's
`eth_signTransaction` result (a parameter here) is returned; otherwise the
local strategy encodes, signs, derives `v`, merges and re-encodes. -/
def signTransaction (rlpEncode : List (List Nat) → List Nat)
    (signatureProvider : Option (List Nat → SignatureLike))
    (remoteSignResult : ISignedTransaction × List Nat)
    (unsignedTransaction : IUnsignedTransaction) :
    ISignedTransaction × List Nat :=
  match signatureProvider with
  | none => remoteSignResult
  | some provider =>
    let rlpEncodedUnsignedTransaction :=
      rlpEncodeTransaction rlpEncode (Sum.inl unsignedTransaction)
    let signature := provider rlpEncodedUnsignedTransaction
    let v := (if signature.yParity = YParity.even then 0 else 1) + 35 +
      2 * unsignedTransaction.chainId
    let decodedTransaction : ISignedTransaction :=
      { toIUnsignedTransaction := unsignedTransaction,
        v := v, r := signature.r, s := signature.s }
    let encodedTransaction :=
      rlpEncodeTransaction rlpEncode (Sum.inr decodedTransaction)
    (decodedTransaction, encodedTransaction)

/-- A sample RLP list encoder used for concrete evaluations (the real one
is external to the repository and irrelevant to the claims). -/
def sampleEncoder : List (List Nat) → List Nat := List.flatten

/-- A sample remote `eth_signTransaction` result (only the local branch is
exercised by the claims that use it). -/
def sampleRemoteResult : ISignedTransaction × List Nat :=
  ({ toIUnsignedTransaction :=
      { nonce := 0, gasPrice := 0, gasLimit := 0, toAddress := none,
        value := 0, data := [], chainId := 0 },
     v := 0, r := 0, s := 0 }, [])

/-- A sample assembled unsigned transaction with `chainId = 1`. -/
def sampleUnsignedTx : IUnsignedTransaction :=
  { nonce := 0, gasPrice := 0, gasLimit := 0, toAddress := none,
    value := 0, data := [], chainId := 1 }

/-- Claim C2: under the local strategy the signed transaction is the
assembled one merged with `r`, `s` from the signature the provider
computed over exactly the unsigned canonical encoding, with
`v = (yParity == odd ? 1 : 0) + 35 + 2 * chainId`, and the broadcast bytes
are the same encoder re-run on that signed form. -/
theorem C2_localSigning (rlpEncode : List (List Nat) → List Nat)
    (provider : List Nat → SignatureLike)
    (remoteSignResult : ISignedTransaction × List Nat)
    (utx : IUnsignedTransaction) :
    (signTransaction rlpEncode (some provider) remoteSignResult utx).1 =
      { toIUnsignedTransaction := utx,
        v := (if (provider (rlpEncodeTransaction rlpEncode (Sum.inl utx))).yParity
                = YParity.odd then 1 else 0) + 35 + 2 * utx.chainId,
        r := (provider (rlpEncodeTransaction rlpEncode (Sum.inl utx))).r,
        s := (provider (rlpEncodeTransaction rlpEncode (Sum.inl utx))).s } ∧
    (signTransaction rlpEncode (some provider) remoteSignResult utx).2 =
      rlpEncodeTransaction rlpEncode
        (Sum.inr (signTransaction rlpEncode (some provider) remoteSignResult utx).1) := by
  cases hy : (provider (rlpEncodeTransaction rlpEncode (Sum.inl utx))).yParity <;>
    simp [signTransaction, hy]

/-- Counterexample to claim C3 as stated: with `chainId = 1` the derived
`v` is `37` for even parity and `38` for odd parity, never `35` or `36`
(the code computes `parity + 35 + 2 * chainId`). -/
theorem C3_counterexample :
    (signTransaction sampleEncoder (some fun _ => ⟨1, 1, YParity.even⟩)
        sampleRemoteResult sampleUnsignedTx).1.v ≠ 35 ∧
    (signTransaction sampleEncoder (some fun _ => ⟨1, 1, YParity.odd⟩)
        sampleRemoteResult sampleUnsignedTx).1.v ≠ 36 := by
  constructor <;> decide

/-- Claim C3 (amended): for the `v`-derivation used in local transaction
signing, `yParity = even, chainId = 1` gives `v = 37` and
`yParity = odd, chainId = 1` gives `v = 38`
(`v = parity + 35 + 2 * chainId`). -/
theorem C3_vDerivation :
    (signTransaction sampleEncoder (some fun _ => ⟨1, 1, YParity.even⟩)
        sampleRemoteResult sampleUnsignedTx).1.v = 37 ∧
    (signTransaction sampleEncoder (some fun _ => ⟨1, 1, YParity.odd⟩)
        sampleRemoteResult sampleUnsignedTx).1.v = 38 := by
  constructor <;> decide

/-- Counterexample to claim C9 as stated: a caller-supplied `nonce` of `0`
is not used; the remote pending transaction count (here `7`) is queried
and used instead, because the source tests JavaScript truthiness (`||`)
rather than presence. -/
theorem C9_counterexample :
    (assembleTransaction (fun tx estimator => estimator tx) (fun _ => 21000)
        ⟨none, 4, fun _ => 7, 1⟩
        ⟨some 1, some 2, some 0, some [], some 5, some 3, some 0⟩).1.nonce = 7 ∧
    (assembleTransaction (fun tx estimator => estimator tx) (fun _ => 21000)
        ⟨none, 4, fun _ => 7, 1⟩
        ⟨some 1, some 2, some 0, some [], some 5, some 3, some 0⟩).1.nonce ≠ 0 ∧
    (assembleTransaction (fun tx estimator => estimator tx) (fun _ => 21000)
        ⟨none, 4, fun _ => 7, 1⟩
        ⟨some 1, some 2, some 0, some [], some 5, some 3, some 0⟩).2.2 = true := by
  refine ⟨rfl, by decide, rfl⟩

/-- Claim C9 (amended): the final `gasLimit` is the caller-supplied value
when one was supplied and nonzero (and then the gas-limit provider is not
invoked), else the gas-limit provider's result on the provisional
transaction (and the provider is invoked); the `nonce` is the
caller-supplied value when nonzero (and then the remote transaction count
is not queried), else the remote pending transaction count for `from`
(and it is queried). -/
theorem C9_assemblerDefaults
    (gasLimitProvider : IOffChainTransaction → (IOffChainTransaction → Nat) → Nat)
    (estimateGas : IOffChainTransaction → Nat)
    (env : AssembleEnv) (t : TxInput) :
    (∀ g, t.gasLimit? = some g → g ≠ 0 →
      (assembleTransaction gasLimitProvider estimateGas env t).1.gasLimit = g ∧
      (assembleTransaction gasLimitProvider estimateGas env t).2.1 = false) ∧
    (jsFalsy t.gasLimit? = true →
      (assembleTransaction gasLimitProvider estimateGas env t).1.gasLimit =
        gasLimitProvider (gasEstimatingTransaction env t) estimateGas ∧
      (assembleTransaction gasLimitProvider estimateGas env t).2.1 = true) ∧
    (∀ n, t.nonce? = some n → n ≠ 0 →
      (assembleTransaction gasLimitProvider estimateGas env t).1.nonce = n ∧
      (assembleTransaction gasLimitProvider estimateGas env t).2.2 = false) ∧
    (jsFalsy t.nonce? = true →
      (assembleTransaction gasLimitProvider estimateGas env t).1.nonce =
        env.transactionCount (gasEstimatingTransaction env t).fromAddress ∧
      (assembleTransaction gasLimitProvider estimateGas env t).2.2 = true) := by
  refine ⟨fun g hg hg0 => ?_, fun hfalsy => ?_, fun n hn hn0 => ?_, fun hfalsy => ?_⟩
  · constructor
    · simp [assembleTransaction, jsOrBigint, hg, hg0]
    · simp [assembleTransaction, jsFalsy, hg, hg0]
  · rcases hcase : t.gasLimit? with _ | g
    · simp [assembleTransaction, jsOrBigint, jsFalsy, hcase]
    · have : g = 0 := by
        simpa [jsFalsy, hcase] using hfalsy
      subst this
      simp [assembleTransaction, jsOrBigint, hcase, jsFalsy]
  · constructor
    · simp [assembleTransaction, jsOrBigint, hn, hn0]
    · simp [assembleTransaction, jsFalsy, hn, hn0]
  · rcases hcase : t.nonce? with _ | n
    · simp [assembleTransaction, jsOrBigint, jsFalsy, hcase]
    · have : n = 0 := by
        simpa [jsFalsy, hcase] using hfalsy
      subst this
      simp [assembleTransaction, jsOrBigint, hcase, jsFalsy]

/-- Witness for C9 (amended) at two concrete inputs: a nonzero supplied
`gasLimit`/`nonce` is used with no provider call or remote query, and a
zero supplied `gasLimit`/`nonce` falls back to the provider/remote count. -/
theorem C9_assemblerDefaults_witness :
    ((assembleTransaction (fun tx estimator => estimator tx) (fun _ => 21000)
        ⟨none, 4, fun _ => 7, 1⟩
        ⟨some 1, some 2, some 0, some [], some 5, some 3, some 9⟩).1.gasLimit = 5 ∧
     (assembleTransaction (fun tx estimator => estimator tx) (fun _ => 21000)
        ⟨none, 4, fun _ => 7, 1⟩
        ⟨some 1, some 2, some 0, some [], some 5, some 3, some 9⟩).2.1 = false) ∧
    ((assembleTransaction (fun tx estimator => estimator tx) (fun _ => 21000)
        ⟨none, 4, fun _ => 7, 1⟩
        ⟨some 1, some 2, some 0, some [], some 0, some 3, some 0⟩).1.nonce =
      (⟨none, 4, fun _ => 7, 1⟩ : AssembleEnv).transactionCount
        (gasEstimatingTransaction ⟨none, 4, fun _ => 7, 1⟩
          ⟨some 1, some 2, some 0, some [], some 0, some 3, some 0⟩).fromAddress ∧
     (assembleTransaction (fun tx estimator => estimator tx) (fun _ => 21000)
        ⟨none, 4, fun _ => 7, 1⟩
        ⟨some 1, some 2, some 0, some [], some 0, some 3, some 0⟩).2.2 = true) :=
  ⟨(C9_assemblerDefaults (fun tx estimator => estimator tx) (fun _ => 21000)
      ⟨none, 4, fun _ => 7, 1⟩
      ⟨some 1, some 2, some 0, some [], some 5, some 3, some 9⟩).1 5 rfl (by decide),
   (C9_assemblerDefaults (fun tx estimator => estimator tx) (fun _ => 21000)
      ⟨none, 4, fun _ => 7, 1⟩
      ⟨some 1, some 2, some 0, some [], some 0, some 3, some 0⟩).2.2.2 rfl⟩

/-- A JavaScript number restricted to the values this program produces:
an integer or `NaN` (`none`). -/
abbrev JsNumber := Option Int

/-- JavaScript addition on possibly-`NaN` numbers. -/
def jsAdd (a b : JsNumber) : JsNumber :=
  match a, b with
  | some x, some y => some (x + y)
  | _, _ => none

/-- JavaScript multiplication of a possibly-`NaN` number by a constant. -/
def jsMul (a : JsNumber) (c : Int) : JsNumber :=
  match a with
  | some x => some (x * c)
  | none => none

/-- `ToIntegerOrInfinity` as it applies here: `NaN` coerces to `0`. -/
def toIntegerOrZero (x : JsNumber) : Int :=
  match x with
  | some i => i
  | none => 0

/-- JavaScript `String.prototype.substr(start, length)` (Annex B) on a
character list: `NaN` arguments coerce to `0`, a negative start counts
from the end, an omitted length (`none`) means the rest of the string, and
everything is clamped so the call never fails. -/
def jsSubstr (s : List Char) (start : JsNumber) (length? : Option JsNumber) :
    List Char :=
  let size : Int := Int.ofNat s.length
  let i0 : Int := toIntegerOrZero start
  let intStart : Int := if i0 < 0 then max (size + i0) 0 else i0
  let intLength : Int := match length? with
    | none => size
    | some l => toIntegerOrZero l
  let intEnd : Int := min (max intLength 0) (size - intStart)
  if intEnd ≤ 0 then []
  else List.take intEnd.toNat (List.drop intStart.toNat s)

/-- One of the sixteen hexadecimal digit characters. -/
def isHexDigit (c : Char) : Bool :=
  (('0' ≤ c) && (c ≤ '9')) || (('a' ≤ c) && (c ≤ 'f')) || (('A' ≤ c) && (c ≤ 'F'))

/-- The value of a hexadecimal digit character. -/
def hexDigitToNat (c : Char) : Nat :=
  if c ≤ '9' then c.toNat - 48
  else if c ≤ 'F' then c.toNat - 55
  else c.toNat - 87

/-- The whitespace characters relevant to `parseInt` trimming. -/
def isJsWhitespace (c : Char) : Bool :=
  c = ' ' || c = '\t' || c = '\n' || c = '\r'

/-- JavaScript `Number.parseInt(s, 16)`: trim whitespace, read an optional
sign and an optional `0x`/`0X`, then the longest run of hex digits; no
digits gives `NaN`.  It never throws. -/
def jsParseIntHex (s : List Char) : JsNumber :=
  let trimmed := s.dropWhile isJsWhitespace
  let signAndRest : Int × List Char := match trimmed with
    | '-' :: rest => (-1, rest)
    | '+' :: rest => (1, rest)
    | _ => (1, trimmed)
  let afterSign : List Char := match signAndRest.2 with
    | '0' :: 'x' :: rest => rest
    | '0' :: 'X' :: rest => rest
    | _ => signAndRest.2
  let digits := afterSign.takeWhile isHexDigit
  if digits.isEmpty then none
  else some (signAndRest.1 *
    Int.ofNat (digits.foldl (fun acc c => acc * 16 + hexDigitToNat c) 0))

/-- Modelled from the spec: `Bytes.fromHexString` from the external
`@zoltu/ethereum-types` package (not under `src/`).  Per §4.6 the revert
decoding "never raises on malformed data", so the model is total: it
decodes successive pairs of hex digits and stops at the first incomplete
or non-hex pair. -/
def bytesFromHexString : List Char → List Nat
  | a :: b :: rest =>
    if isHexDigit a && isHexDigit b then
      (16 * hexDigitToNat a + hexDigitToNat b) :: bytesFromHexString rest
    else []
  | _ => []

/-- Modelled from the spec: `TextDecoder().decode` (external), §4.6's
"UTF-8 payload" decode.  ASCII bytes map to their characters;
multi-byte sequences are abstracted to the replacement character.  It
never throws (the WHATWG decoder substitutes U+FFFD). -/
def textDecode (bytes : List Nat) : List Char :=
  bytes.map fun b => if b < 128 then Char.ofNat b else Char.ofNat 0xFFFD

/-- The JSON value in a JSON-RPC error's `data` field, as far as
`typeof error.data !== 'string'` distinguishes it. -/
inductive JsonRpcErrorData where
  | str (s : List Char)
  | num (n : Int)
  | null
  | bool (b : Bool)
deriving DecidableEq

/-- The JSON-RPC error object `{code, message, data}`. -/
structure JsonRpcError where
  code : Int
  message : List Char
  data : JsonRpcErrorData
deriving DecidableEq

/-- The literal `Reverted 0x08c379a0` (19 characters), the Parity revert
marker whose length positions every `substr` call in the decoder. -/
def revertedMarker : List Char := "Reverted 0x08c379a0".data

/-- The literal `revert: `, the Nethermind revert marker. -/
def nethermindMarker : List Char := "revert: ".data

/-- The literal `Contract Error: ` that prefixes every decoded revert
reason. -/
def contractErrorTag : List Char := "Contract Error: ".data

/-- From `src/source/index.ts` lines 238-253: `extractErrorMessage`.
Non-string `data` returns `message` unchanged; a Parity `Reverted
0x08c379a0` payload is decoded as offset (hex chars 19-82, times 2),
length (64 hex chars at 19+offset, times 2) and hex payload (at
19+offset+64); a Nethermind `revert: ` payload is the rest of the string;
anything else returns `message` unchanged. -/
def extractErrorMessage (error : JsonRpcError) : List Char :=
  match error.data with
  | JsonRpcErrorData.str data =>
    if revertedMarker.isPrefixOf data then
      let offset := jsMul (jsParseIntHex
        (jsSubstr data (some (Int.ofNat revertedMarker.length)) (some (some 64)))) 2
      let length := jsMul (jsParseIntHex
        (jsSubstr data (jsAdd (some (Int.ofNat revertedMarker.length)) offset)
          (some (some 64)))) 2
      let message := textDecode (bytesFromHexString
        (jsSubstr data (jsAdd (jsAdd (some 19) offset) (some 64)) (some length)))
      contractErrorTag ++ message
    else if nethermindMarker.isPrefixOf data then
      let message := jsSubstr data (some (Int.ofNat nethermindMarker.length)) none
      contractErrorTag ++ message
    else error.message
  | _ => error.message

/-- The ABI-encoded `Error("Oops")` revert data of claim C6: the marker,
a 32-byte offset word (`0x20`), a 32-byte length word (`4`), and the
padded UTF-8 payload `4f6f7073` (`Oops`). -/
def oopsRevertData : List Char :=
  "Reverted 0x08c379a0".data ++
  (List.replicate 62 '0' ++ "20".data) ++
  (List.replicate 62 '0' ++ "04".data) ++
  ("4f6f7073".data ++ List.replicate 56 '0')

set_option maxRecDepth 16384 in
/-- Claim C6: the error normalizer decodes the Parity ABI revert payload
for `Error("Oops")` to `Contract Error: Oops`, strips the Nethermind
prefix from `revert: bad input` to give `Contract Error: bad input`, and
leaves the original message unchanged for non-string `data` such as `42`. -/
theorem C6_errorNormalization :
    extractErrorMessage
        ⟨3, "execution reverted".data, JsonRpcErrorData.str oopsRevertData⟩ =
      "Contract Error: Oops".data ∧
    extractErrorMessage
        ⟨3, "execution reverted".data, JsonRpcErrorData.str "revert: bad input".data⟩ =
      "Contract Error: bad input".data ∧
    extractErrorMessage
        ⟨3, "execution reverted".data, JsonRpcErrorData.num 42⟩ =
      "execution reverted".data := by
  refine ⟨by decide, by decide, rfl⟩

/-- Claim C7: the revert-reason decoding never raises: every JSON-RPC
error object maps to a message — either the original `message` or
`Contract Error: ` followed by some decoded remainder (all the string
operations are clamped/total, and a fully truncated payload such as the
bare marker degrades to `Contract Error: ` with an empty reason). -/
theorem C7_errorNormalizerTotal :
    (∀ error : JsonRpcError,
      extractErrorMessage error = error.message ∨
      ∃ rest, extractErrorMessage error = contractErrorTag ++ rest) ∧
    extractErrorMessage
        ⟨3, "execution reverted".data, JsonRpcErrorData.str revertedMarker⟩ =
      contractErrorTag := by
  constructor
  · intro error
    rcases error with ⟨code, message, d⟩
    cases d with
    | str s =>
      by_cases h1 : revertedMarker.isPrefixOf s
      · right
        simp only [extractErrorMessage]
        rw [if_pos h1]
        exact ⟨_, rfl⟩
      · by_cases h2 : nethermindMarker.isPrefixOf s
        · right
          simp only [extractErrorMessage]
          rw [if_neg h1, if_pos h2]
          exact ⟨_, rfl⟩
        · left
          simp [extractErrorMessage, h1, h2]
    | num n => exact Or.inl rfl
    | null => exact Or.inl rfl
    | bool b => exact Or.inl rfl
  · decide

/-- The big-endian encoding of `n` in exactly `k` bytes
(`bytesFromUnsignedInteger n 256` is this at `k = 32`). -/
def bigEndianBytes (n k : Nat) : List Nat :=
  (List.range k).map fun i => n / 256 ^ (k - 1 - i) % 256

/-- A byte of the low `k`-byte chunk agrees with the same byte of `n`. -/
theorem digit_mod_pow (n j k : Nat) (h : j < k) :
    n % 256 ^ k / 256 ^ j % 256 = n / 256 ^ j % 256 := by
  have hk : 256 ^ k = 256 ^ j * 256 ^ (k - j) := by
    rw [← pow_add]
    congr 1
    omega
  rw [hk, Nat.mod_mul_right_div_self]
  exact Nat.mod_mod_of_dvd _ (dvd_pow_self 256 (by omega))

/-- Peeling the most significant byte off a fixed-width big-endian
encoding. -/
theorem bigEndianBytes_succ (n k : Nat) :
    bigEndianBytes n (k + 1) =
      (n / 256 ^ k % 256) :: bigEndianBytes (n % 256 ^ k) k := by
  have htail : ((List.range k).map Nat.succ).map
      (fun i => n / 256 ^ (k + 1 - 1 - i) % 256) =
      (List.range k).map (fun i => n % 256 ^ k / 256 ^ (k - 1 - i) % 256) := by
    rw [List.map_map]
    apply List.map_congr_left
    intro i hi
    have hik : i < k := List.mem_range.mp hi
    show n / 256 ^ (k + 1 - 1 - (i + 1)) % 256 = n % 256 ^ k / 256 ^ (k - 1 - i) % 256
    have h1 : k + 1 - 1 - (i + 1) = k - 1 - i := by omega
    rw [h1, digit_mod_pow n (k - 1 - i) k (by omega)]
  calc bigEndianBytes n (k + 1)
      = (0 :: (List.range k).map Nat.succ).map
          (fun i => n / 256 ^ (k + 1 - 1 - i) % 256) := by
        unfold bigEndianBytes
        rw [List.range_succ_eq_map]
    _ = (n / 256 ^ k % 256) :: bigEndianBytes (n % 256 ^ k) k := by
        rw [List.map_cons, htail]
        rfl

/-- Peeling the least significant byte off a fixed-width big-endian
encoding. -/
theorem bigEndianBytes_succ_append (n k : Nat) :
    bigEndianBytes n (k + 1) = bigEndianBytes (n / 256) k ++ [n % 256] := by
  have hbody : (List.range k).map (fun i => n / 256 ^ (k + 1 - 1 - i) % 256) =
      (List.range k).map (fun i => n / 256 / 256 ^ (k - 1 - i) % 256) := by
    apply List.map_congr_left
    intro i hi
    have hik : i < k := List.mem_range.mp hi
    have h1 : k + 1 - 1 - i = (k - 1 - i) + 1 := by omega
    rw [h1, pow_succ', ← Nat.div_div_eq_div_mul]
  calc bigEndianBytes n (k + 1)
      = (List.range k ++ [k]).map (fun i => n / 256 ^ (k + 1 - 1 - i) % 256) := by
        unfold bigEndianBytes
        rw [List.range_succ]
    _ = bigEndianBytes (n / 256) k ++ [n % 256] := by
        rw [List.map_append, hbody]
        unfold bigEndianBytes
        congr 1
        show [n / 256 ^ (k + 1 - 1 - k) % 256] = [n % 256]
        have h0 : k + 1 - 1 - k = 0 := by omega
        rw [h0, pow_zero, Nat.div_one]

/-- `minimalBigEndian` at zero. -/
theorem minimalBigEndian_zero : minimalBigEndian 0 = [] := by
  rw [minimalBigEndian]
  rfl

/-- The recursive step of `minimalBigEndian` at a nonzero value. -/
theorem minimalBigEndian_of_ne (n : Nat) (h : n ≠ 0) :
    minimalBigEndian n = minimalBigEndian (n / 256) ++ [n % 256] := by
  rw [minimalBigEndian, dif_neg h]

/-- A value whose top byte is in range fills its fixed width exactly, and
then the fixed-width encoding is already the minimal one. -/
theorem bigEndianBytes_eq_minimal (k : Nat) : ∀ n, 256 ^ k ≤ n → n < 256 ^ (k + 1) →
    bigEndianBytes n (k + 1) = minimalBigEndian n := by
  induction k with
  | zero =>
    intro n h1 h2
    rw [bigEndianBytes_succ_append]
    have hz : bigEndianBytes (n / 256) 0 = [] := rfl
    have hdiv : n / 256 = 0 := Nat.div_eq_of_lt (by simpa using h2)
    rw [hz, minimalBigEndian_of_ne n (by omega), hdiv, minimalBigEndian_zero]
  | succ k ih =>
    intro n h1 h2
    have hpos : 0 < (256 : Nat) ^ (k + 1) := pow_pos (by norm_num) _
    have hne : n ≠ 0 := by omega
    rw [bigEndianBytes_succ_append, minimalBigEndian_of_ne n hne,
      ih (n / 256) ?_ ?_]
    · rw [Nat.le_div_iff_mul_le (by norm_num : 0 < 256), ← pow_succ]
      exact h1
    · rw [Nat.div_lt_iff_lt_mul (by norm_num : 0 < 256), ← pow_succ]
      exact h2

/-- Stripping the leading zero bytes of a fixed-width big-endian encoding
yields exactly the minimal big-endian representation. -/
theorem strip_bigEndianBytes (k : Nat) : ∀ n, n < 256 ^ k →
    stripLeadingZeros (bigEndianBytes n k) = minimalBigEndian n := by
  induction k with
  | zero =>
    intro n h
    have hn : n = 0 := by simpa using h
    subst hn
    simp [bigEndianBytes, stripLeadingZeros, minimalBigEndian_zero]
  | succ k ih =>
    intro n h
    rw [bigEndianBytes_succ]
    by_cases hd : n / 256 ^ k = 0
    · have hlt : n < 256 ^ k :=
        (Nat.div_eq_zero_iff (pow_pos (by norm_num) k)).mp hd
      have hmod : n % 256 ^ k = n := Nat.mod_eq_of_lt hlt
      rw [hd, hmod]
      simpa [stripLeadingZeros] using ih n hlt
    · have hlt256 : n / 256 ^ k < 256 := by
        rw [Nat.div_lt_iff_lt_mul (pow_pos (by norm_num) k), ← pow_succ']
        exact h
      have hmod : n / 256 ^ k % 256 = n / 256 ^ k := Nat.mod_eq_of_lt hlt256
      have h1 : 256 ^ k ≤ n := by
        by_contra hc
        push_neg at hc
        exact hd (Nat.div_eq_of_lt hc)
      have hne : ¬ (n / 256 ^ k % 256 = 0) := by
        rw [hmod]
        exact hd
      have hstrip : stripLeadingZeros
          (n / 256 ^ k % 256 :: bigEndianBytes (n % 256 ^ k) k) =
          n / 256 ^ k % 256 :: bigEndianBytes (n % 256 ^ k) k := by
        simp [stripLeadingZeros, hne]
      rw [hstrip, ← bigEndianBytes_succ, bigEndianBytes_eq_minimal k n h1 h]

/-- For any 256-bit value, the source's `stripLeadingZeros ∘
Bytes.fromUnsignedInteger(·, 256)` is the minimal big-endian encoding. -/
theorem strip_bytesFromUnsignedInteger (n : Nat) (h : n < 2 ^ 256) :
    stripLeadingZeros (bytesFromUnsignedInteger n 256) = minimalBigEndian n := by
  have h32 : n < 256 ^ 32 := by
    have he : (256 : Nat) ^ 32 = 2 ^ 256 := by norm_num
    omega
  exact strip_bigEndianBytes 32 n h32

/-- All integer fields of an unsigned transaction fit in 256 bits. -/
def txFieldsBounded (t : IUnsignedTransaction) : Prop :=
  t.nonce < 2 ^ 256 ∧ t.gasPrice < 2 ^ 256 ∧ t.gasLimit < 2 ^ 256 ∧
  t.value < 2 ^ 256 ∧ t.chainId < 2 ^ 256 ∧ t.toAddress.getD 0 < 2 ^ 256

/-- The amended claim's encoding of the `to` field: empty for `null`,
else the big-endian address bytes with leading zeros stripped (its
minimal big-endian representation). -/
def toFieldBytes (toAddress : Option Nat) : List Nat :=
  match toAddress with
  | none => []
  | some a => minimalBigEndian a

/-- What the source computes for the `to` slot equals the amended claim's
`toFieldBytes`. -/
theorem strip_toField (x : Option Nat) (h : x.getD 0 < 2 ^ 256) :
    stripLeadingZeros
        (match x with
          | some a => bytesFromUnsignedInteger a 256
          | none => []) = toFieldBytes x := by
  cases x with
  | none => rfl
  | some a => simpa [toFieldBytes] using strip_bytesFromUnsignedInteger a (by simpa using h)

/-- Counterexample to claim C1 as stated: for a destination address of
`0x…01` the encoder emits the single byte `[1]` for the `to` field (its
256-bit bytes with the leading zeros stripped), not its fixed-width
address bytes. -/
theorem C1_counterexample :
    rlpEncodeTransactionFields (Sum.inl ⟨0, 0, 0, some 1, 0, [], 1⟩) =
      [[], [], [], [1], [], [], [1], [], []] ∧
    fixedWidthAddressBytes 1 ≠ [1] := by
  constructor
  · decide
  · decide

/-- Claim C1 (amended): the encoder builds the field list in the order
`nonce, gasPrice, gasLimit, to, value, data`, each integer field as its
minimal big-endian bytes, `to` as the empty byte string when null and
else as its big-endian address bytes with leading zeros stripped, then
appends `[chainId, empty, empty]` for the unsigned layout or `[v, r, s]`
(leading-zero-stripped) for the signed layout, before handing the list to
the external list encoder. -/
theorem C1_canonicalFieldList (t : IUnsignedTransaction) (st : ISignedTransaction)
    (ht : txFieldsBounded t) (hst : txFieldsBounded st.toIUnsignedTransaction)
    (hv : st.v < 2 ^ 256) (hr : st.r < 2 ^ 256) (hs : st.s < 2 ^ 256) :
    rlpEncodeTransactionFields (Sum.inl t) =
      [minimalBigEndian t.nonce, minimalBigEndian t.gasPrice,
       minimalBigEndian t.gasLimit, toFieldBytes t.toAddress,
       minimalBigEndian t.value, t.data,
       minimalBigEndian t.chainId, [], []] ∧
    rlpEncodeTransactionFields (Sum.inr st) =
      [minimalBigEndian st.nonce, minimalBigEndian st.gasPrice,
       minimalBigEndian st.gasLimit, toFieldBytes st.toAddress,
       minimalBigEndian st.value, st.data,
       minimalBigEndian st.v, minimalBigEndian st.r, minimalBigEndian st.s] := by
  obtain ⟨h1, h2, h3, h4, h5, h6⟩ := ht
  obtain ⟨g1, g2, g3, g4, g5, g6⟩ := hst
  constructor
  · cases hto : t.toAddress with
    | none =>
      simp only [rlpEncodeTransactionFields, hto]
      rw [strip_bytesFromUnsignedInteger _ h1, strip_bytesFromUnsignedInteger _ h2,
        strip_bytesFromUnsignedInteger _ h3, strip_bytesFromUnsignedInteger _ h4,
        strip_bytesFromUnsignedInteger _ h5]
      rfl
    | some a =>
      have ha : a < 2 ^ 256 := by simpa [hto] using h6
      simp only [rlpEncodeTransactionFields, hto]
      rw [strip_bytesFromUnsignedInteger _ h1, strip_bytesFromUnsignedInteger _ h2,
        strip_bytesFromUnsignedInteger _ h3, strip_bytesFromUnsignedInteger _ h4,
        strip_bytesFromUnsignedInteger _ h5, strip_bytesFromUnsignedInteger _ ha]
      rfl
  · cases hto : st.toAddress with
    | none =>
      simp only [rlpEncodeTransactionFields, hto]
      rw [strip_bytesFromUnsignedInteger _ g1, strip_bytesFromUnsignedInteger _ g2,
        strip_bytesFromUnsignedInteger _ g3, strip_bytesFromUnsignedInteger _ g4,
        strip_bytesFromUnsignedInteger _ hv, strip_bytesFromUnsignedInteger _ hr,
        strip_bytesFromUnsignedInteger _ hs]
      rfl
    | some a =>
      have ha : a < 2 ^ 256 := by simpa [hto] using g6
      simp only [rlpEncodeTransactionFields, hto]
      rw [strip_bytesFromUnsignedInteger _ g1, strip_bytesFromUnsignedInteger _ g2,
        strip_bytesFromUnsignedInteger _ g3, strip_bytesFromUnsignedInteger _ g4,
        strip_bytesFromUnsignedInteger _ ha, strip_bytesFromUnsignedInteger _ hv,
        strip_bytesFromUnsignedInteger _ hr, strip_bytesFromUnsignedInteger _ hs]
      rfl

/-- Witness for C1 (amended) at a concrete unsigned and a concrete signed
transaction. -/
theorem C1_canonicalFieldList_witness :
    rlpEncodeTransactionFields (Sum.inl ⟨1, 2, 3, some 4, 5, [6], 7⟩) =
      [minimalBigEndian 1, minimalBigEndian 2, minimalBigEndian 3,
       toFieldBytes (some 4), minimalBigEndian 5, [6],
       minimalBigEndian 7, [], []] ∧
    rlpEncodeTransactionFields (Sum.inr ⟨⟨1, 2, 3, some 4, 5, [6], 7⟩, 8, 9, 10⟩) =
      [minimalBigEndian 1, minimalBigEndian 2, minimalBigEndian 3,
       toFieldBytes (some 4), minimalBigEndian 5, [6],
       minimalBigEndian 8, minimalBigEndian 9, minimalBigEndian 10] :=
  C1_canonicalFieldList ⟨1, 2, 3, some 4, 5, [6], 7⟩
    ⟨⟨1, 2, 3, some 4, 5, [6], 7⟩, 8, 9, 10⟩
    ⟨by norm_num, by norm_num, by norm_num, by norm_num, by norm_num, by norm_num⟩
    ⟨by norm_num, by norm_num, by norm_num, by norm_num, by norm_num, by norm_num⟩
    (by norm_num) (by norm_num) (by norm_num)
